import Mathlib

/-!
# Verification of the Pong WebSocket commentary server (`server.js`)

A shallow embedding of the session / commentary-orchestration engine of the
repository's `server.js`:

* a model `JSVal` of the JavaScript values that flow through the server
  (JSON-parsed frames, MessagePack-decoded frames, state snapshots),
  together with the JavaScript coercions the code uses (truthiness, strict
  equality against string literals, `Number(...)`, property access that
  throws on `null`/`undefined` bases, template-literal stringification);
* the inbound-message handler (`ws.on('message')`), the upgrade handshake
  (`server.on('upgrade')` / `wss.on('connection')`), the two periodic
  scheduler bodies (commentary and coach), the simulated generators, the
  directive-parsing branches and the streaming loop, each translated from
  the corresponding lines of `server.js`;
* the admission (rate-limiter) store, modelled at the boundary the
  server sees: an atomic per-key "consume one point under a budget"
  counter within one window.

Theorems below settle the frozen claims about this code.
-/

namespace PongServer

/-- JavaScript runtime values as far as `server.js` observes them.
`nan` is the numeric not-a-number value (`JSON.parse` never produces it,
but MessagePack-decoded snapshots may contain it); every other number is
an exact rational `num q`. -/
inductive JSVal where
  | undef
  | null
  | nan
  | bool (b : Bool)
  | num (q : ℚ)
  | str (s : String)
  | arr (elems : List JSVal)
  | obj (fields : List (String × JSVal))

namespace JSVal

/-- JavaScript truthiness: `undefined`, `null`, `NaN`, `false`, `0` and `""`
are falsy; everything else (including `[]` and `{}`) is truthy. -/
def truthy : JSVal → Bool
  | undef => false
  | null => false
  | nan => false
  | bool b => b
  | num q => q ≠ 0
  | str s => s ≠ ""
  | arr _ => true
  | obj _ => true

/-- JavaScript strict equality against a string literal (`v === "lit"`):
true exactly when `v` is that string. -/
def strEq (v : JSVal) (lit : String) : Bool :=
  match v with
  | str s => s = lit
  | _ => false

/-- Model of `Array.isArray(v)`. -/
def isArray : JSVal → Bool
  | arr _ => true
  | _ => false

/-- Model of `typeof v === 'number'` (`NaN` is a number in JavaScript). -/
def isNumber : JSVal → Bool
  | num _ => true
  | nan => true
  | _ => false

/-- Property access `base.field`: throws a `TypeError` when the base is
`null`/`undefined`; yields `undefined` for a missing field or a
primitive base; looks the field up on objects. -/
def getProp : JSVal → String → Except Unit JSVal
  | undef, _ => .error ()
  | null, _ => .error ()
  | obj fs, k => .ok ((fs.lookup k).getD undef)
  | _, _ => .ok undef

/-- Non-throwing field lookup used where the base is already known to be an
object (or where a primitive base silently yields `undefined`):
`getField v k = undef` when `v` is not an object or lacks `k`. -/
def getField (v : JSVal) (k : String) : JSVal :=
  match v with
  | obj fs => (fs.lookup k).getD undef
  | _ => undef

/-- Optional-chaining access `base?.field`: `undefined` on a nullish base,
otherwise ordinary access (which no longer throws). -/
def optChain (v : JSVal) (k : String) : JSVal :=
  match v with
  | undef => undef
  | null => undef
  | w => getField w k

/-- Array index access `a[i]` where `a` is an array
(out of bounds gives `undefined`). -/
def index (v : JSVal) (i : Nat) : JSVal :=
  match v with
  | arr xs => (xs.get? i).getD undef
  | _ => undef

end JSVal

/-! ## Numeric conversions (`Number(...)`, `toFixed`, template stringification)

JavaScript numbers are modelled as exact rationals plus a separate `nan`
value.  `toNumber` returns `none` for NaN.  Exotic coercions the server
never relies on (hex strings, `Infinity`, array/object `toPrimitive`) are
abstracted to NaN. -/

/-- Numeric value of a run of decimal digits. -/
def digitsToNat (ds : List Char) : Nat :=
  ds.foldl (fun a c => a * 10 + (c.toNat - 48)) 0

/-- Split off the leading run of decimal digits. -/
def spanDigits (cs : List Char) : List Char × List Char :=
  cs.span (·.isDigit)

/-- Scan a decimal number `-?digits(.digits)?([eE][+-]?digits)?` from the
front of a character list, returning its value and the rest. -/
def scanNumber (cs : List Char) : Option (ℚ × List Char) :=
  let signed : Bool × List Char :=
    match cs with
    | '-' :: r => (true, r)
    | _ => (false, cs)
  let neg := signed.1
  let (ip, cs2) := spanDigits signed.2
  if ip.isEmpty then none else
  let withFrac : Option (ℚ × List Char) :=
    match cs2 with
    | '.' :: r =>
      let (ds, r') := spanDigits r
      if ds.isEmpty then none
      else some ((digitsToNat ip : ℚ) + (digitsToNat ds : ℚ) / (10 : ℚ) ^ ds.length, r')
    | _ => some ((digitsToNat ip : ℚ), cs2)
  match withFrac with
  | none => none
  | some (v, cs3) =>
    let v := if neg then -v else v
    match cs3 with
    | 'e' :: r =>
      let se : Int × List Char :=
        match r with
        | '+' :: t => (1, t)
        | '-' :: t => (-1, t)
        | _ => (1, r)
      let (eds, r2) := spanDigits se.2
      if eds.isEmpty then none
      else some (v * (10 : ℚ) ^ (se.1 * (digitsToNat eds : Int)), r2)
    | 'E' :: r =>
      let se : Int × List Char :=
        match r with
        | '+' :: t => (1, t)
        | '-' :: t => (-1, t)
        | _ => (1, r)
      let (eds, r2) := spanDigits se.2
      if eds.isEmpty then none
      else some (v * (10 : ℚ) ^ (se.1 * (digitsToNat eds : Int)), r2)
    | _ => some (v, cs3)

/-- JavaScript whitespace as `String.prototype.trim` strips it. -/
def jsIsWs (c : Char) : Bool :=
  c = ' ' ∨ c = '\t' ∨ c = '\n' ∨ c = '\r' ∨ c = '\x0c' ∨ c = '\x0b'

/-- Strip leading and trailing whitespace from a character list. -/
def trimChars (cs : List Char) : List Char :=
  ((cs.dropWhile jsIsWs).reverse.dropWhile jsIsWs).reverse

/-- Model of JavaScript `s.trim()`. -/
def jsTrim (s : String) : String :=
  String.mk (trimChars s.toList)

/-- JavaScript `ToNumber` on a string: empty/whitespace is `0`, a decimal
literal is its value, anything else is NaN (`none`). -/
def strToNumber (s : String) : Option ℚ :=
  let t := trimChars s.toList
  if t.isEmpty then some 0
  else
    match scanNumber t with
    | some (q, rest) => if rest.isEmpty then some q else none
    | none => none

/-- JavaScript `Number(v)`; `none` is NaN.  Arrays and objects are
abstracted to NaN (the server only converts snapshot leaves). -/
def toNumber : JSVal → Option ℚ
  | .undef => none
  | .null => some 0
  | .nan => none
  | .bool b => some (if b then 1 else 0)
  | .num q => some q
  | .str s => strToNumber s
  | .arr _ => none
  | .obj _ => none

/-- Fixed-point rendering of a rational with `d` decimal places, rounding
to the nearest (ties up), as `Number.prototype.toFixed` does. -/
def ratToFixed (q : ℚ) (d : Nat) : String :=
  let n : ℤ := round (q * (10 : ℚ) ^ d)
  let digits := toString n.natAbs
  let digits := String.mk (List.replicate (d + 1 - digits.length) '0') ++ digits
  let intPart := digits.take (digits.length - d)
  let fracPart := digits.drop (digits.length - d)
  (if n < 0 then "-" else "") ++ intPart ++ (if d = 0 then "" else "." ++ fracPart)

/-- JavaScript number-to-string for the finite-decimal rationals this
development produces: integers print without a point, other values with
the least number of decimals.  (Values with no finite decimal expansion
fall back to a fraction rendering; no run of the embedded server produces
one.) -/
def ratToString (q : ℚ) : String :=
  if q.den = 1 then toString q.num
  else
    match (List.range 31).find? (fun k => (q * (10 : ℚ) ^ k).den = 1) with
    | some k => ratToFixed q k
    | none => toString q.num ++ "/" ++ toString q.den

/-- Rendering of `Number(v).toFixed(d)` where `v` has already gone through `toNumber`:
NaN renders as `"NaN"`. -/
def numToFixed (v : Option ℚ) (d : Nat) : String :=
  match v with
  | none => "NaN"
  | some q => ratToFixed q d

mutual

/-- JavaScript template-literal stringification `${v}` (`String(v)`):
arrays join their elements with commas, plain objects print as
`[object Object]`. -/
def jsToString : JSVal → String
  | .undef => "undefined"
  | .null => "null"
  | .nan => "NaN"
  | .bool b => if b then "true" else "false"
  | .num q => ratToString q
  | .str s => s
  | .arr xs => jsToStringList xs
  | .obj _ => "[object Object]"

/-- Comma-joined stringification of array elements. -/
def jsToStringList : List JSVal → String
  | [] => ""
  | [x] => jsToString x
  | x :: y :: xs => jsToString x ++ "," ++ jsToStringList (y :: xs)

end

/-! ## `JSON.parse`

A fuel-indexed recursive-descent parser for the JSON texts the server
feeds to `JSON.parse` (inbound text frames, generated commentary).  Fuel
`length + 1` suffices because every recursive call strictly consumes
input.  A parse error models the exception `JSON.parse` throws. -/

/-- Skip JSON whitespace. -/
def skipWs : List Char → List Char
  | c :: cs => if c = ' ' ∨ c = '\n' ∨ c = '\t' ∨ c = '\r' then skipWs cs else c :: cs
  | [] => []

/-- Value of a hexadecimal digit, if any. -/
def hexVal (c : Char) : Option Nat :=
  if '0' ≤ c ∧ c ≤ '9' then some (c.toNat - 48)
  else if 'a' ≤ c ∧ c ≤ 'f' then some (c.toNat - 87)
  else if 'A' ≤ c ∧ c ≤ 'F' then some (c.toNat - 55)
  else none

/-- Body of a JSON string literal, after the opening quote: returns the
decoded characters and the input after the closing quote. -/
def scanStringBody : List Char → Option (List Char × List Char)
  | [] => none
  | '"' :: rest => some ([], rest)
  | '\\' :: rest =>
    match rest with
    | '"' :: rs => (scanStringBody rs).map (fun p => ('"' :: p.1, p.2))
    | '\\' :: rs => (scanStringBody rs).map (fun p => ('\\' :: p.1, p.2))
    | '/' :: rs => (scanStringBody rs).map (fun p => ('/' :: p.1, p.2))
    | 'b' :: rs => (scanStringBody rs).map (fun p => ('\x08' :: p.1, p.2))
    | 'f' :: rs => (scanStringBody rs).map (fun p => ('\x0c' :: p.1, p.2))
    | 'n' :: rs => (scanStringBody rs).map (fun p => ('\n' :: p.1, p.2))
    | 'r' :: rs => (scanStringBody rs).map (fun p => ('\r' :: p.1, p.2))
    | 't' :: rs => (scanStringBody rs).map (fun p => ('\t' :: p.1, p.2))
    | 'u' :: a :: b :: c :: d :: rs =>
      match hexVal a, hexVal b, hexVal c, hexVal d with
      | some ha, some hb, some hc, some hd =>
        (scanStringBody rs).map
          (fun p => (Char.ofNat (((ha * 16 + hb) * 16 + hc) * 16 + hd) :: p.1, p.2))
      | _, _, _, _ => none
    | _ => none
  | c :: rest => (scanStringBody rest).map (fun p => (c :: p.1, p.2))

mutual

/-- Parse one JSON value from the front of the input. -/
def parseVal : Nat → List Char → Option (JSVal × List Char)
  | 0, _ => none
  | fuel + 1, cs =>
    match skipWs cs with
    | '{' :: rest =>
      match skipWs rest with
      | '}' :: r2 => some (.obj [], r2)
      | cs2 => parseMembers fuel cs2 []
    | '[' :: rest =>
      match skipWs rest with
      | ']' :: r2 => some (.arr [], r2)
      | cs2 => parseElems fuel cs2 []
    | '"' :: rest => (scanStringBody rest).map (fun p => (.str (String.mk p.1), p.2))
    | 't' :: 'r' :: 'u' :: 'e' :: rest => some (.bool true, rest)
    | 'f' :: 'a' :: 'l' :: 's' :: 'e' :: rest => some (.bool false, rest)
    | 'n' :: 'u' :: 'l' :: 'l' :: rest => some (.null, rest)
    | cs1 => (scanNumber cs1).map (fun p => (.num p.1, p.2))

/-- Parse the members of a JSON object (positioned at a key). -/
def parseMembers : Nat → List Char → List (String × JSVal) → Option (JSVal × List Char)
  | 0, _, _ => none
  | fuel + 1, cs, acc =>
    match skipWs cs with
    | '"' :: rest =>
      match scanStringBody rest with
      | none => none
      | some (k, r1) =>
        match skipWs r1 with
        | ':' :: r2 =>
          match parseVal fuel r2 with
          | none => none
          | some (v, r3) =>
            match skipWs r3 with
            | ',' :: r4 => parseMembers fuel r4 (acc ++ [(String.mk k, v)])
            | '}' :: r4 => some (.obj (acc ++ [(String.mk k, v)]), r4)
            | _ => none
        | _ => none
    | _ => none

/-- Parse the elements of a JSON array (positioned at an element). -/
def parseElems : Nat → List Char → List JSVal → Option (JSVal × List Char)
  | 0, _, _ => none
  | fuel + 1, cs, acc =>
    match parseVal fuel cs with
    | none => none
    | some (v, r1) =>
      match skipWs r1 with
      | ',' :: r2 => parseElems fuel r2 (acc ++ [v])
      | ']' :: r2 => some (.arr (acc ++ [v]), r2)
      | _ => none

end

/-- Model of `JSON.parse(s)`: whole-string parse; `error` models the thrown
`SyntaxError`. -/
def jsonParse (s : String) : Except Unit JSVal :=
  match parseVal (s.length + 1) s.toList with
  | some (v, rest) => if (skipWs rest).isEmpty then .ok v else .error ()
  | none => .error ()

/-! ## Configuration, admission control, session registry -/

/-- The configuration values `server.js` reads from the environment
(lines 45-48), with their documented defaults available as `Config.default`. -/
structure Config where
  commentaryIntervalMs : Int
  coachIntervalMs : Int
  stateLimitPerSecond : Nat
  commentaryLimitPerMinute : Nat

/-- Default configuration (`1200`, `10000`, `5`, `40`). -/
def Config.default : Config := ⟨1200, 10000, 5, 40⟩

/-- A `RateLimiterRedis` as configured in `server.js`: a key prefix, a
point budget, and a window duration in seconds. -/
structure RateLimiter where
  keyPrefix : String
  points : Nat
  duration : Nat

/-- Lines 71-77: the state-message limiter (`rl_state`, per second). -/
def stateLimiter (cfg : Config) : RateLimiter :=
  ⟨"rl_state", cfg.stateLimitPerSecond, 1⟩

/-- Lines 80-86: the commentary-call limiter (`rl_commentary`, per minute). -/
def commentaryLimiter (cfg : Config) : RateLimiter :=
  ⟨"rl_commentary", cfg.commentaryLimitPerMinute, 60⟩

/-- The shared Redis counter store within one rate window: consumed points
per full key (`keyPrefix:identity`). -/
structure Store where
  counts : List (String × Nat)

/-- Points already consumed under a full key. -/
def Store.get (st : Store) (k : String) : Nat :=
  (st.counts.lookup k).getD 0

/-- Increment the count under a full key. -/
def bumpCounts : List (String × Nat) → String → List (String × Nat)
  | [], k => [(k, 1)]
  | (k', n) :: rest, k =>
    if k' = k then (k', n + 1) :: rest else (k', n) :: bumpCounts rest k

/-- Store with one more point consumed under a full key. -/
def Store.inc (st : Store) (k : String) : Store :=
  ⟨bumpCounts st.counts k⟩

/-- Modelled from the spec: the external admission store collaborator
(`rate-limiter-flexible` over Redis, not part of `src/`), at the boundary
§3/§4.3/§6 describe — an atomic "consume one point under key X with
budget B over duration D"; a consume within the budget succeeds and
increments the counter, exceeding the budget fails the consume without
mutating further state.  `limiter.consume(key)` prefixes the key with the
limiter's `keyPrefix`; the thrown rejection is `error`. -/
def consume (lim : RateLimiter) (st : Store) (key : String) : Except Unit Store :=
  let k := lim.keyPrefix ++ ":" ++ key
  if st.get k < lim.points then .ok (st.inc k) else .error ()

/-- Full counter key a limiter uses for an identity. -/
def limiterKey (lim : RateLimiter) (key : String) : String :=
  lim.keyPrefix ++ ":" ++ key

/-- The per-connection session record stored in `metaByWs` (lines 150-155). -/
structure Meta where
  lastCommentAt : Int
  lastCoachAt : Int
  coachEnabled : Bool
  lastState : JSVal

/-- The record `wss.on('connection')` installs (lines 150-155). -/
def initMeta : Meta :=
  { lastCommentAt := 0, lastCoachAt := 0, coachEnabled := false, lastState := .null }

/-- Outbound events: one constructor per `ws.send(JSON.stringify({...}))`
shape in `server.js`. -/
inductive OutEvent where
  | welcome (user : JSVal)
  | error (message : String)
  | pong (ts : Int)
  | coach_status (enabled : Bool)
  | commentary (text : String)
  | commentary_chunk (text : String)
  | coach (text : String)
  | control (control : JSVal)

/-- An inbound WebSocket message: a binary frame carries the outcome of
`msgpack.decode` (an external library call that either yields a value or
throws), a text frame carries the raw string handed to `JSON.parse`. -/
inductive InMsg where
  | binary (decoded : Except Unit JSVal)
  | text (raw : String)

/-- Result of handling one inbound message: the admission store, the
session record, and the events sent to this client, in order. -/
structure MsgResult where
  store : Store
  meta : Meta
  events : List OutEvent

/-- Lines 176-211: dispatch of a successfully decoded inbound value
through the `if`/`else if` chain of the message handler. -/
def dispatch (cfg : Config) (now : Int) (userKey : String)
    (st : Store) (meta : Meta) (data : JSVal) : MsgResult :=
  if data.isArray ∧ (data.index 0).strEq "state" then
    match consume (stateLimiter cfg) st userKey with
    | .error _ => ⟨st, meta, [.error "state rate limit exceeded"]⟩
    | .ok st' => ⟨st', { meta with lastState := data.index 1 }, []⟩
  else if data.truthy ∧ (data.getField "type").strEq "state" then
    match consume (stateLimiter cfg) st userKey with
    | .error _ => ⟨st, meta, [.error "state rate limit exceeded"]⟩
    | .ok st' => ⟨st', { meta with lastState := data.getField "state" }, []⟩
  else if data.truthy ∧ (data.getField "type").strEq "coach_enable" then
    let enabled := (data.getField "enable").truthy
    ⟨st, { meta with coachEnabled := enabled, lastCoachAt := 0 },
      [.coach_status enabled]⟩
  else if data.truthy ∧ (data.getField "type").strEq "ping" then
    ⟨st, meta, [.pong now]⟩
  else
    ⟨st, meta, [.error "unknown message type"]⟩

/-- Lines 159-212: the whole `ws.on('message')` handler — decode (with the
`try`/`catch` around `msgpack.decode` / `JSON.parse`) then dispatch. -/
def handleMessage (cfg : Config) (now : Int) (userKey : String)
    (st : Store) (meta : Meta) : InMsg → MsgResult
  | .binary (.error _) => ⟨st, meta, [.error "invalid message"]⟩
  | .binary (.ok d) => dispatch cfg now userKey st meta d
  | .text s =>
    match jsonParse s with
    | .error _ => ⟨st, meta, [.error "invalid message"]⟩
    | .ok d => dispatch cfg now userKey st meta d

/-! ## Connection handshake (lines 103-157) -/

/-- A signed credential as the spec's §4.1/§6 describe the external JWT
collaborator: claims, the secret it was signed with, and an expiry.
`jwt.verify` (an external library call) succeeds iff the signature
matches the server's secret and the token is unexpired. -/
structure JwtToken where
  claims : JSVal
  signedWith : String
  expiresAt : Int

/-- Modelled from the spec: verification of a wire token string by the
external `jsonwebtoken` library against the server secret — `decodeTok`
maps wire strings to the credentials they encode (`none` for garbage);
verification fails on a wrong signature or an expired token. -/
def jwtVerify (secret : String) (now : Int) (decodeTok : String → Option JwtToken)
    (t : String) : Except Unit JSVal :=
  match decodeTok t with
  | none => .error ()
  | some tok =>
    if tok.signedWith = secret ∧ now < tok.expiresAt then .ok tok.claims else .error ()

/-- Outcome of `server.on('upgrade')`: an HTTP rejection written before
the upgrade, or an accepted WebSocket with the decoded user attached. -/
inductive UpgradeResult where
  | rejected (status : Nat)
  | accepted (user : JSVal)

/-- Lines 116-123: the credential lookup — the second requested
sub-protocol token, else the `token` query parameter. -/
def requestToken (protocols : List String) (queryToken : Option String) :
    Option String :=
  match protocols.get? 1 with
  | some t => some t
  | none => queryToken

/-- Lines 108-143: the upgrade handler.  `protocols` is the parsed
`sec-websocket-protocol` list (already trimmed and filtered of empties by
`parseProtocols`), `queryToken` the `token` query parameter if the URL
has one.  `verify` is the `jwt.verify(token, JWT_SECRET)` call. -/
def onUpgrade (verify : String → Except Unit JSVal)
    (protocols : List String) (queryToken : Option String) : UpgradeResult :=
  if protocols.isEmpty ∨ ¬ protocols.head? = some "pong-proto.v1" then
    .rejected 400
  else
    match requestToken protocols queryToken with
    | none => .rejected 401
    | some t =>
      if t = "" then .rejected 401
      else
        match verify t with
        | .ok user => .accepted user
        | .error _ => .rejected 401

/-- Lines 148-157: the connection handler — create the session record and
send `welcome` carrying the decoded user. -/
def onConnection (user : JSVal) : Meta × List OutEvent :=
  (initMeta, [.welcome user])

/-- A full connection attempt: the registry entry and events exist only
when the upgrade accepted; a rejected upgrade destroys the socket before
`wss.emit('connection')`, so no session record is ever created. -/
def acceptConnection (verify : String → Except Unit JSVal)
    (protocols : List String) (queryToken : Option String) :
    Option (Meta × List OutEvent) :=
  match onUpgrade verify protocols queryToken with
  | .rejected _ => none
  | .accepted user => some (onConnection user)

/-! ## Simulated generators (lines 221-240) -/

/-- The fixed phrase set of `generateSimulatedCommentary`. -/
def phrases : List String :=
  ["Nice block!", "Amazing reflex!", "Edge of the paddle — nearly missed!",
   "Fast return!", "Deep to the corner!", "Watch the angle!",
   "Move early to intercept", "Keep paddle centered",
   "Aim low for a tough return"]

/-- The fixed tip set of `generateSimulatedCoachTip`. -/
def tips : List String :=
  ["Keep paddle centered and move small amounts; this reduces overcommit and increases reach for angled returns.",
   "Anticipate opponent returns by watching their paddle center; move preemptively rather than reacting late.",
   "Aim slightly ahead of the ball to push returns low — low angles are harder to reach and often cause misses."]

/-- The three `Math.random()` draws one simulated-commentary call makes:
the phrase index (`floor(random * phrases.length)`), whether the 5%
directive branch fires, and whether the speed delta is `-0.5`. -/
structure SimRand where
  phraseIdx : Nat
  emitDirective : Bool
  halfDown : Bool

/-- JavaScript `a || b`. -/
def jsOr (a b : JSVal) : JSVal := if a.truthy then a else b

/-- JavaScript `v + d` for `d = ±0.5` (line 228): numeric addition after
primitive coercion; a string operand concatenates with the decimal
rendering of `d` and the result is coerced back to a number by the
enclosing `Math.min`; arrays and objects abstract to NaN. -/
def jsAddHalf (v : JSVal) (halfDown : Bool) : Option ℚ :=
  let d : ℚ := if halfDown then -(1 / 2) else 1 / 2
  match v with
  | .num q => some (q + d)
  | .nan => none
  | .bool b => some ((if b then 1 else 0) + d)
  | .null => some d
  | .undef => none
  | .str s => strToNumber (s ++ (if halfDown then "-0.5" else "0.5"))
  | .arr _ => none
  | .obj _ => none

/-- Rendering of `Math.max(2, Math.min(8, v))`: NaN propagates. -/
def mathClamp28 (v : Option ℚ) : Option ℚ :=
  v.map (fun q => max 2 (min 8 q))

/-- Value of `Number(q.toFixed(2))`. -/
def roundTo2 (q : ℚ) : ℚ :=
  (round (q * 100) : ℚ) / 100

/-- Interpolation `${v}` of an already-converted number (NaN included). -/
def numToString : Option ℚ → String
  | none => "NaN"
  | some q => ratToString q

/-- Lines 221-232: `generateSimulatedCommentary` — with probability ~5%
(here: `r.emitDirective`) the `JSON.stringify({type:'aiAdjust',aiSpeed})`
directive string (NaN stringifies to `null`), else a phrase. -/
def generateSimulatedCommentary (state : JSVal) (r : SimRand) : String :=
  if r.emitDirective then
    let aiSpeed :=
      mathClamp28 (jsAddHalf
        (jsOr ((state.optChain "rightPaddle").optChain "speed") (.num 4)) r.halfDown)
    "\x7b\"type\":\"aiAdjust\",\"aiSpeed\":" ++
      (match aiSpeed.map roundTo2 with
       | none => "null"
       | some q => ratToString q) ++ "\x7d"
  else
    (phrases.get? (r.phraseIdx % phrases.length)).getD ""

/-- Lines 233-240: `generateSimulatedCoachTip`. -/
def generateSimulatedCoachTip (idx : Nat) : String :=
  (tips.get? (idx % tips.length)).getD ""

/-! ## Prompt construction (lines 265-274 and 360-369) -/

/-- Evaluation of `Number(s.a.b)` inside the prompt template literal: two
property accesses — each a `TypeError` on a nullish base — then the
`Number` conversion (which never throws). -/
def numField (s : JSVal) (a b : String) : Except Unit (Option ℚ) := do
  let first ← s.getProp a
  let v ← first.getProp b
  pure (toNumber v)

/-- Evaluation of `${s.a.b}` (raw interpolation of a nested field). -/
def strField (s : JSVal) (a b : String) : Except Unit String := do
  let first ← s.getProp a
  let v ← first.getProp b
  pure (jsToString v)

/-- Lines 267-273 / 362-368: the snapshot section shared verbatim by the
commentary and coach user prompts, evaluated in template-literal order
with its possible `TypeError`s. -/
def snapshotText (s : JSVal) : Except Unit String := do
  let bx ← numField s "ball" "x"
  let byv ← numField s "ball" "y"
  let bvx ← numField s "ball" "vx"
  let bvy ← numField s "ball" "vy"
  let lpy ← numField s "leftPaddle" "y"
  let rpy ← numField s "rightPaddle" "y"
  let rsp ← numField s "rightPaddle" "speed"
  let scp ← strField s "score" "player"
  let sca ← strField s "score" "ai"
  let run ← s.getProp "running"
  pure ("Snapshot:\nball x=" ++ numToFixed bx 1 ++ " y=" ++ numToFixed byv 1 ++
    " vx=" ++ numToFixed bvx 2 ++ " vy=" ++ numToFixed bvy 2 ++
    "\nleftPaddle.y=" ++ numToFixed lpy 1 ++
    "\nrightPaddle.y=" ++ numToFixed rpy 1 ++ " speed=" ++ numToString rsp ++
    "\nscore player=" ++ scp ++ " ai=" ++ sca ++
    "\nrunning=" ++ jsToString run)

/-- Lines 267-274: the commentary `userPrompt`. -/
def commentaryUserPrompt (s : JSVal) : Except Unit String :=
  (snapshotText s).map (· ++ "\n\nRespond accordingly.")

/-- Lines 362-369: the coach `userPrompt`. -/
def coachUserPrompt (s : JSVal) : Except Unit String :=
  (snapshotText s).map (· ++ "\n\nProvide one coaching tip.")

/-! ## Directive parsing and output routing (lines 276-288, 304-330) -/

/-- Lines 278-288: the simulated-path directive check — `JSON.parse` the
generated text; on a truthy value whose `type` is `'aiAdjust'` send a
`control` event then a confirmation `commentary`; anything else (parse
failure included) is sent as plain commentary.  Note the simulated branch
does not test `typeof parsed.aiSpeed === 'number'`. -/
def simulatedEmit (out : String) : List OutEvent :=
  match jsonParse out with
  | .ok parsed =>
    if parsed.truthy ∧ (parsed.getField "type").strEq "aiAdjust" then
      [.control parsed,
       .commentary ("(AI speed set to " ++ jsToString (parsed.getField "aiSpeed") ++ ")")]
    else [.commentary out]
  | .error _ => [.commentary out]

/-- Lines 305-315: the streaming loop — each nonempty extracted chunk is
appended to the aggregate and forwarded as a `commentary_chunk` event, in
stream order. -/
def streamLoop : List String → List OutEvent × String
  | [] => ([], "")
  | c :: cs =>
    let rest := streamLoop cs
    if c ≠ "" then (.commentary_chunk c :: rest.1, c ++ rest.2) else rest

/-- Lines 317-330: routing of the trimmed final streaming text — a truthy
`aiAdjust` object with a numeric `aiSpeed` (the streaming branch, unlike
the simulated one, does test `typeof parsed.aiSpeed === 'number'`) yields
`control` then the confirmation `commentary`; anything else one plain
`commentary` with the text itself. -/
def streamFinalEmit (finalText : String) : List OutEvent :=
  match jsonParse finalText with
  | .ok parsed =>
    if parsed.truthy ∧ (parsed.getField "type").strEq "aiAdjust" ∧
        (parsed.getField "aiSpeed").isNumber then
      [.control parsed,
       .commentary ("(AI speed set to " ++ jsToString (parsed.getField "aiSpeed") ++ ")")]
    else [.commentary finalText]
  | .error _ => [.commentary finalText]

/-- Lines 304-330: the full streaming path — forward chunks, then route
the trimmed aggregate. -/
def streamEmit (chunks : List String) : List OutEvent :=
  let run := streamLoop chunks
  run.1 ++ streamFinalEmit (jsTrim run.2)

/-! ## The two periodic scheduler bodies (lines 243-336 and 339-396) -/

/-- How one commentary generation resolves for a session: the simulated
variant with its random draws, or the external provider's streaming call
— `none` models a thrown network error (caught at line 331), `some`
the finite chunk sequence the stream yielded. -/
inductive GenMode where
  | simulated (r : SimRand)
  | provider (stream : Option (List String))

/-- How one coach generation resolves: the simulated variant with its tip
index, or the non-streaming provider call — `none` a thrown error
(caught at line 391), `some` the extracted `coachText` before `trim`. -/
inductive CoachMode where
  | simulated (tipIdx : Nat)
  | provider (resp : Option String)

/-- Outcome of one scheduler-tick body for one session.  `done` carries
the session record, store, sent events and whether generation was
invoked; `thrown` models an exception escaping the tick body (aborting
the remaining sessions of that tick), with the mutations already made. -/
inductive TickOutcome where
  | done (meta : Meta) (store : Store) (events : List OutEvent) (invoked : Bool)
  | thrown (meta : Meta) (store : Store) (events : List OutEvent)

/-- Session record after a tick outcome. -/
def TickOutcome.meta : TickOutcome → Meta
  | .done m _ _ _ => m
  | .thrown m _ _ => m

/-- Store after a tick outcome. -/
def TickOutcome.store : TickOutcome → Store
  | .done _ st _ _ => st
  | .thrown _ st _ => st

/-- Events a tick outcome sent. -/
def TickOutcome.events : TickOutcome → List OutEvent
  | .done _ _ evs _ => evs
  | .thrown _ _ evs => evs

/-- Whether generation was invoked. -/
def TickOutcome.invoked : TickOutcome → Bool
  | .done _ _ _ inv => inv
  | .thrown _ _ _ => false

/-- Lines 245-335: the commentary-scheduler body for one session — skip
without state or within the interval; on admission rejection send the
rate-limited placeholder and still advance `lastCommentAt`; on admission
advance `lastCommentAt` first, build the prompt (which can throw on a
malformed snapshot), then invoke generation and route its output. -/
def commentaryTick (cfg : Config) (now : Int) (userKey : String) (mode : GenMode)
    (st : Store) (meta : Meta) : TickOutcome :=
  if ¬ meta.lastState.truthy then .done meta st [] false
  else if now - meta.lastCommentAt < cfg.commentaryIntervalMs then .done meta st [] false
  else
    match consume (commentaryLimiter cfg) st userKey with
    | .error _ =>
      .done { meta with lastCommentAt := now } st
        [.commentary "[commentary rate-limited]"] false
    | .ok st' =>
      let meta' := { meta with lastCommentAt := now }
      match commentaryUserPrompt meta.lastState with
      | .error _ => .thrown meta' st' []
      | .ok _ =>
        match mode with
        | .simulated r =>
          .done meta' st' (simulatedEmit (generateSimulatedCommentary meta.lastState r)) true
        | .provider none => .done meta' st' [.commentary "[commentary error]"] true
        | .provider (some chunks) => .done meta' st' (streamEmit chunks) true

/-- Lines 341-395: the coach-scheduler body for one session — additionally
gated on `coachEnabled`, longer interval, same `commentaryLimiter`,
always non-streaming. -/
def coachTick (cfg : Config) (now : Int) (userKey : String) (mode : CoachMode)
    (st : Store) (meta : Meta) : TickOutcome :=
  if ¬ meta.coachEnabled ∨ ¬ meta.lastState.truthy then .done meta st [] false
  else if now - meta.lastCoachAt < cfg.coachIntervalMs then .done meta st [] false
  else
    match consume (commentaryLimiter cfg) st userKey with
    | .error _ =>
      .done { meta with lastCoachAt := now } st [.coach "[coach rate-limited]"] false
    | .ok st' =>
      let meta' := { meta with lastCoachAt := now }
      match coachUserPrompt meta.lastState with
      | .error _ => .thrown meta' st' []
      | .ok _ =>
        match mode with
        | .simulated i => .done meta' st' [.coach (generateSimulatedCoachTip i)] true
        | .provider none => .done meta' st' [.coach "[coach error]"] true
        | .provider (some t) => .done meta' st' [.coach (jsTrim t)] true

/-- One commentary-scheduler tick reaching a given session: the tick time
(`Date.now()` at line 244) and how generation would resolve. -/
structure TickInput where
  now : Int
  mode : GenMode

/-- A run of successive commentary-scheduler ticks over one session,
returning the times of the ticks that invoked generation. -/
def runCommentary (cfg : Config) (userKey : String) :
    List TickInput → Store → Meta → List Int
  | [], _, _ => []
  | t :: ts, st, meta =>
    let o := commentaryTick cfg t.now userKey t.mode st meta
    if o.invoked then t.now :: runCommentary cfg userKey ts o.store o.meta
    else runCommentary cfg userKey ts o.store o.meta

/-! ## Observations used by the theorem statements -/

/-- A nullish value (`undefined` or `null`): exactly the bases on which a
property access throws. -/
def JSVal.nullish : JSVal → Bool
  | .undef => true
  | .null => true
  | _ => false

/-- Whether a tick outcome is an escaped exception. -/
def TickOutcome.threw : TickOutcome → Bool
  | .thrown _ _ _ => true
  | _ => false

/-- Number of `control` events in an event list. -/
def controlCount (evs : List OutEvent) : Nat :=
  evs.countP (fun e => match e with | .control _ => true | _ => false)

/-- Number of final `commentary` events in an event list. -/
def commentaryCount (evs : List OutEvent) : Nat :=
  evs.countP (fun e => match e with | .commentary _ => true | _ => false)

/-- Number of `commentary_chunk` events in an event list. -/
def chunkCount (evs : List OutEvent) : Nat :=
  evs.countP (fun e => match e with | .commentary_chunk _ => true | _ => false)

/-- Concatenation of a chunk sequence, in order. -/
def streamAggregate : List String → String
  | [] => ""
  | c :: cs => c ++ streamAggregate cs

/-- The snapshot fields whose absence the prompt template survives versus
not: the template throws exactly when the snapshot itself or one of its
`ball`, `leftPaddle`, `rightPaddle`, `score` members is nullish. -/
def promptSafe (s : JSVal) : Bool :=
  ¬ s.nullish ∧ ¬ (s.getField "ball").nullish ∧ ¬ (s.getField "leftPaddle").nullish ∧
    ¬ (s.getField "rightPaddle").nullish ∧ ¬ (s.getField "score").nullish

/-- A well-formed snapshot used in concrete instantiations. -/
def sampleState : JSVal :=
  .obj [("ball", .obj [("x", .num 100), ("y", .num 60), ("vx", .num 3), ("vy", .num (-2))]),
        ("leftPaddle", .obj [("y", .num 40)]),
        ("rightPaddle", .obj [("y", .num 50), ("speed", .num 4)]),
        ("score", .obj [("player", .num 1), ("ai", .num 2)]),
        ("running", .bool true)]

/-- A session record with coaching enabled and a well-formed snapshot. -/
def sampleCoachMeta : Meta := ⟨0, 0, true, sampleState⟩

/-- A session record with a well-formed snapshot and coaching off. -/
def sampleMeta : Meta := ⟨0, 0, false, sampleState⟩

/-- One binary state frame `["state", n]` through the handler, threading
store and session record. -/
def stateFrameStep (p : Store × Meta) (n : Nat) : Store × Meta :=
  let r := dispatch Config.default 0 "dev-user" p.1 p.2 (.arr [.str "state", .num n])
  (r.store, r.meta)

/-- Store and session after five state frames `["state", 0] … ["state", 4]`
from one identity within one window, under the default budget of 5. -/
def fiveFrames : Store × Meta :=
  (List.range 5).foldl stateFrameStep (⟨[]⟩, initMeta)

/-- The sixth state frame of the same window. -/
def sixthFrame : MsgResult :=
  dispatch Config.default 0 "dev-user" fiveFrames.1 fiveFrames.2 (.arr [.str "state", .num 5])

/-! ## Helper lemmas -/

theorem JSVal.strEq_iff (v : JSVal) (lit : String) :
    v.strEq lit = true ↔ v = .str lit := by
  cases v <;> simp [JSVal.strEq]

theorem JSVal.getProp_eq (v : JSVal) (k : String) :
    v.getProp k = if v.nullish then .error () else .ok (v.getField k) := by
  cases v <;> rfl

theorem lookup_bumpCounts (l : List (String × Nat)) (k : String) :
    ((bumpCounts l k).lookup k).getD 0 = (l.lookup k).getD 0 + 1 := by
  induction l with
  | nil => simp [bumpCounts, List.lookup]
  | cons p rest ih =>
    obtain ⟨k', n⟩ := p
    by_cases hk : k' = k
    · subst hk
      simp [bumpCounts, List.lookup]
    · have hk' : (k == k') = false := by
        simp [hk]
        exact fun h => hk h.symm
      simp [bumpCounts, hk, List.lookup, hk', ih]

theorem Store.get_inc (st : Store) (k : String) :
    (st.inc k).get k = st.get k + 1 :=
  lookup_bumpCounts st.counts k

theorem consume_ok_eq (lim : RateLimiter) (st : Store) (key : String) (st' : Store)
    (h : consume lim st key = .ok st') :
    st' = st.inc (limiterKey lim key) ∧ st.get (limiterKey lim key) < lim.points := by
  simp only [consume, limiterKey] at h ⊢
  split_ifs at h with hlt
  refine ⟨?_, hlt⟩
  injection h with h2
  exact h2.symm

theorem consume_error_iff (lim : RateLimiter) (st : Store) (key : String) :
    consume lim st key = .error () ↔ lim.points ≤ st.get (limiterKey lim key) := by
  simp only [consume, limiterKey]
  split_ifs with hlt
  · exact iff_of_false (by simp) (by omega)
  · exact iff_of_true rfl (by omega)

/-- Exhaustive shape of one commentary-tick outcome: a silent skip, a
rejected admission (placeholder sent, timestamp still advanced), or an
admitted consumption (timestamp advanced, one budget point consumed)
that either throws in prompt construction or invokes generation.  The
two non-skip groups record that both gates passed. -/
theorem commentaryTick_shape (cfg : Config) (now : Int) (key : String) (gmode : GenMode)
    (st : Store) (meta : Meta) :
    commentaryTick cfg now key gmode st meta = .done meta st [] false ∨
    (meta.lastState.truthy = true ∧ meta.lastCommentAt + cfg.commentaryIntervalMs ≤ now ∧
      ((consume (commentaryLimiter cfg) st key = .error () ∧
         commentaryTick cfg now key gmode st meta =
           .done { meta with lastCommentAt := now } st
             [.commentary "[commentary rate-limited]"] false) ∨
       (consume (commentaryLimiter cfg) st key =
           .ok (st.inc (limiterKey (commentaryLimiter cfg) key)) ∧
         ((commentaryTick cfg now key gmode st meta =
             .thrown { meta with lastCommentAt := now }
               (st.inc (limiterKey (commentaryLimiter cfg) key)) [] ∧
            commentaryUserPrompt meta.lastState = .error ()) ∨
          ∃ evs, commentaryTick cfg now key gmode st meta =
            .done { meta with lastCommentAt := now }
              (st.inc (limiterKey (commentaryLimiter cfg) key)) evs true)))) := by
  unfold commentaryTick
  split_ifs with h1 h2
  · exact Or.inl rfl
  · right
    refine ⟨h1, by omega, ?_⟩
    rcases hc : consume (commentaryLimiter cfg) st key with u | st'
    · cases u
      exact Or.inl ⟨rfl, rfl⟩
    · obtain ⟨rfl, _⟩ := consume_ok_eq _ _ _ _ hc
      refine Or.inr ⟨rfl, ?_⟩
      rcases hp : commentaryUserPrompt meta.lastState with u | p
      · cases u
        exact Or.inl ⟨rfl, rfl⟩
      · cases gmode with
        | simulated r => exact Or.inr ⟨_, rfl⟩
        | provider s =>
          cases s with
          | none => exact Or.inr ⟨_, rfl⟩
          | some chunks => exact Or.inr ⟨_, rfl⟩
  · exact Or.inl rfl

/-- Exhaustive shape of one coach-tick outcome, mirroring
`commentaryTick_shape` with the coach gates and fields. -/
theorem coachTick_shape (cfg : Config) (now : Int) (key : String) (cmode : CoachMode)
    (st : Store) (meta : Meta) :
    coachTick cfg now key cmode st meta = .done meta st [] false ∨
    (meta.coachEnabled = true ∧ meta.lastState.truthy = true ∧
      meta.lastCoachAt + cfg.coachIntervalMs ≤ now ∧
      ((consume (commentaryLimiter cfg) st key = .error () ∧
         coachTick cfg now key cmode st meta =
           .done { meta with lastCoachAt := now } st [.coach "[coach rate-limited]"] false) ∨
       (consume (commentaryLimiter cfg) st key =
           .ok (st.inc (limiterKey (commentaryLimiter cfg) key)) ∧
         ((coachTick cfg now key cmode st meta =
             .thrown { meta with lastCoachAt := now }
               (st.inc (limiterKey (commentaryLimiter cfg) key)) [] ∧
            coachUserPrompt meta.lastState = .error ()) ∨
          ∃ evs, coachTick cfg now key cmode st meta =
            .done { meta with lastCoachAt := now }
              (st.inc (limiterKey (commentaryLimiter cfg) key)) evs true)))) := by
  unfold coachTick
  split_ifs with h1 h2
  · exact Or.inl rfl
  · exact Or.inl rfl
  · right
    rw [not_or, not_not, not_not] at h1
    refine ⟨h1.1, h1.2, by omega, ?_⟩
    rcases hc : consume (commentaryLimiter cfg) st key with u | st'
    · cases u
      exact Or.inl ⟨rfl, rfl⟩
    · obtain ⟨rfl, _⟩ := consume_ok_eq _ _ _ _ hc
      refine Or.inr ⟨rfl, ?_⟩
      rcases hp : coachUserPrompt meta.lastState with u | p
      · cases u
        exact Or.inl ⟨rfl, rfl⟩
      · cases cmode with
        | simulated i => exact Or.inr ⟨_, rfl⟩
        | provider s =>
          cases s with
          | none => exact Or.inr ⟨_, rfl⟩
          | some t => exact Or.inr ⟨_, rfl⟩

/-- C7: for every session with `coachEnabled` false, or with no state ever
received, a coach scheduler tick produces zero output events for that
session regardless of how much time has elapsed since its last coach
output, performs no admission consumption, and leaves the session record
unchanged. -/
theorem coach_disabled_tick_silent (cfg : Config) (now : Int) (userKey : String)
    (mode : CoachMode) (st : Store) (meta : Meta)
    (h : meta.coachEnabled = false ∨ meta.lastState.truthy = false) :
    coachTick cfg now userKey mode st meta = .done meta st [] false := by
  unfold coachTick
  rcases h with h | h <;> simp [h]

theorem coach_disabled_tick_silent_witness :
    (initMeta.coachEnabled = false ∨ initMeta.lastState.truthy = false) ∧
      coachTick Config.default 999999999 "dev-user" (.simulated 0) ⟨[]⟩ initMeta =
        .done initMeta ⟨[]⟩ [] false :=
  ⟨Or.inl rfl,
   coach_disabled_tick_silent Config.default 999999999 "dev-user" (.simulated 0) ⟨[]⟩
     initMeta (Or.inl rfl)⟩

/-- C10: every `coach_enable` frame, whatever the `enable` value, sets the
session's `coachEnabled` to the boolean coercion of `enable`, resets
`lastCoachAt` to 0 — so the coach interval gate passes at any tick time
at least the interval (immediate eligibility, bypassing any remaining
wait) — leaves `lastState`, `lastCommentAt` and the admission store
unchanged, and sends exactly one `coach_status` event echoing the coerced
value. -/
theorem coach_enable_frame (cfg : Config) (now : Int) (userKey : String)
    (st : Store) (meta : Meta) (d : JSVal)
    (h : (d.getField "type").strEq "coach_enable" = true) :
    dispatch cfg now userKey st meta d =
      ⟨st, { meta with coachEnabled := (d.getField "enable").truthy, lastCoachAt := 0 },
        [.coach_status (d.getField "enable").truthy]⟩ ∧
    (dispatch cfg now userKey st meta d).meta.lastState = meta.lastState ∧
    (dispatch cfg now userKey st meta d).meta.lastCommentAt = meta.lastCommentAt ∧
    ∀ t : Int, cfg.coachIntervalMs ≤ t →
      ¬ (t - (dispatch cfg now userKey st meta d).meta.lastCoachAt < cfg.coachIntervalMs) := by
  have hv := (JSVal.strEq_iff _ _).mp h
  have hobj : ∃ fs, d = .obj fs := by
    cases d <;> simp [JSVal.getField] at hv
    exact ⟨_, rfl⟩
  obtain ⟨fs, rfl⟩ := hobj
  set en := ((JSVal.obj fs).getField "enable").truthy with hen
  have hd : dispatch cfg now userKey st meta (.obj fs) =
      ⟨st, { meta with coachEnabled := en, lastCoachAt := 0 }, [.coach_status en]⟩ := by
    unfold dispatch
    simp [JSVal.isArray, JSVal.truthy, hv, JSVal.strEq, hen]
  refine ⟨hd, ?_, ?_, ?_⟩
  · rw [hd]
  · rw [hd]
  · intro t ht
    rw [hd]
    simp only
    omega

theorem coach_enable_frame_witness :
    ((JSVal.obj [("type", .str "coach_enable"), ("enable", .num 1)]).getField "type").strEq
        "coach_enable" = true ∧
    dispatch Config.default 0 "dev-user" ⟨[]⟩ initMeta
        (.obj [("type", .str "coach_enable"), ("enable", .num 1)]) =
      ⟨⟨[]⟩, { initMeta with coachEnabled := true, lastCoachAt := 0 }, [.coach_status true]⟩ :=
  ⟨rfl,
   ((coach_enable_frame Config.default 0 "dev-user" ⟨[]⟩ initMeta
      (.obj [("type", .str "coach_enable"), ("enable", .num 1)]) rfl).1)⟩

/-- C9: the commentary scheduler and the coach scheduler consume from the
same admission category and counter (the `rl_commentary` limiter), keyed
by the same identity: an admitted consumption by either scheduler
increments exactly the counter key the other scheduler's admission check
reads, so each admitted coach invocation leaves one point less of the
shared per-user budget for commentary invocations in the same window and
vice versa; once the shared budget is exhausted, both schedulers'
admissions are rejected. -/
theorem shared_commentary_budget (cfg : Config) (now now' : Int) (userKey : String)
    (gmode : GenMode) (cmode : CoachMode) (st : Store) (meta meta' : Meta) :
    (((coachTick cfg now userKey cmode st meta).invoked = true ∨
        (coachTick cfg now userKey cmode st meta).threw = true) →
      (coachTick cfg now userKey cmode st meta).store.get
          (limiterKey (commentaryLimiter cfg) userKey) =
        st.get (limiterKey (commentaryLimiter cfg) userKey) + 1) ∧
    (((commentaryTick cfg now userKey gmode st meta).invoked = true ∨
        (commentaryTick cfg now userKey gmode st meta).threw = true) →
      (commentaryTick cfg now userKey gmode st meta).store.get
          (limiterKey (commentaryLimiter cfg) userKey) =
        st.get (limiterKey (commentaryLimiter cfg) userKey) + 1) ∧
    (cfg.commentaryLimitPerMinute ≤ st.get (limiterKey (commentaryLimiter cfg) userKey) →
      (coachTick cfg now userKey cmode st meta).invoked = false ∧
      (commentaryTick cfg now' userKey gmode st meta').invoked = false) := by
  refine ⟨?_, ?_, ?_⟩
  · intro hin
    rcases coachTick_shape cfg now userKey cmode st meta with h | ⟨_, _, _, hrest⟩
    · rw [h] at hin
      simp [TickOutcome.invoked, TickOutcome.threw] at hin
    · rcases hrest with ⟨_, he⟩ | ⟨_, he⟩
      · rw [he] at hin
        simp [TickOutcome.invoked, TickOutcome.threw] at hin
      · rcases he with ⟨he, _⟩ | ⟨evs, he⟩ <;> rw [he] <;>
          exact Store.get_inc st _
  · intro hin
    rcases commentaryTick_shape cfg now userKey gmode st meta with h | ⟨_, _, hrest⟩
    · rw [h] at hin
      simp [TickOutcome.invoked, TickOutcome.threw] at hin
    · rcases hrest with ⟨_, he⟩ | ⟨_, he⟩
      · rw [he] at hin
        simp [TickOutcome.invoked, TickOutcome.threw] at hin
      · rcases he with ⟨he, _⟩ | ⟨evs, he⟩ <;> rw [he] <;>
          exact Store.get_inc st _
  · intro hb
    constructor
    · rcases coachTick_shape cfg now userKey cmode st meta with h | ⟨_, _, _, hrest⟩
      · rw [h]
        rfl
      · rcases hrest with ⟨_, he⟩ | ⟨hc, _⟩
        · rw [he]
          rfl
        · obtain ⟨_, hlt⟩ := consume_ok_eq _ _ _ _ hc
          exact absurd hb (by simpa [commentaryLimiter] using Nat.not_le.mpr hlt)
    · rcases commentaryTick_shape cfg now' userKey gmode st meta' with h | ⟨_, _, hrest⟩
      · rw [h]
        rfl
      · rcases hrest with ⟨_, he⟩ | ⟨hc, _⟩
        · rw [he]
          rfl
        · obtain ⟨_, hlt⟩ := consume_ok_eq _ _ _ _ hc
          exact absurd hb (by simpa [commentaryLimiter] using Nat.not_le.mpr hlt)

theorem shared_commentary_budget_witness :
    (coachTick Config.default 20000 "dev-user" (.simulated 0) ⟨[]⟩ sampleCoachMeta).invoked =
        true ∧
    (coachTick Config.default 20000 "dev-user" (.simulated 0) ⟨[]⟩ sampleCoachMeta).store.get
        (limiterKey (commentaryLimiter Config.default) "dev-user") =
      (Store.mk []).get (limiterKey (commentaryLimiter Config.default) "dev-user") + 1 ∧
    (coachTick Config.default 20000 "dev-user" (.simulated 0)
        ⟨[("rl_commentary:dev-user", 40)]⟩ sampleCoachMeta).invoked = false ∧
    (commentaryTick Config.default 20000 "dev-user" (.simulated ⟨0, false, false⟩)
        ⟨[("rl_commentary:dev-user", 40)]⟩ sampleCoachMeta).invoked = false := by
  have h1 := (shared_commentary_budget Config.default 20000 20000 "dev-user"
    (.simulated ⟨0, false, false⟩) (.simulated 0) ⟨[]⟩ sampleCoachMeta sampleCoachMeta).1
    (Or.inl rfl)
  have h2 := (shared_commentary_budget Config.default 20000 20000 "dev-user"
    (.simulated ⟨0, false, false⟩) (.simulated 0) ⟨[("rl_commentary:dev-user", 40)]⟩
    sampleCoachMeta sampleCoachMeta).2.2 (by decide)
  exact ⟨rfl, h1, h2.1, h2.2⟩

theorem chain_head_mono {I : Int} {a b : Int} {l : List Int}
    (hab : b ≤ a) (h : List.Chain' (fun x y => x + I ≤ y) (a :: l)) :
    List.Chain' (fun x y => x + I ≤ y) (b :: l) := by
  cases l with
  | nil => simp
  | cons c l' =>
    rw [List.chain'_cons] at h ⊢
    exact ⟨by omega, h.2⟩

/-- The session's `lastCommentAt` heads a chain in which every later
invocation time is at least one interval further: rejected and admitted
ticks alike advance the timestamp to their own tick time, and only
gate-passing ticks touch it. -/
theorem runCommentary_chain (cfg : Config) (key : String)
    (hI : 0 ≤ cfg.commentaryIntervalMs) :
    ∀ (ticks : List TickInput) (st : Store) (meta : Meta),
      List.Chain' (fun a b => a + cfg.commentaryIntervalMs ≤ b)
        (meta.lastCommentAt :: runCommentary cfg key ticks st meta) := by
  intro ticks
  induction ticks with
  | nil =>
    intro st meta
    simp [runCommentary]
  | cons t ts ih =>
    intro st meta
    simp only [runCommentary]
    rcases commentaryTick_shape cfg t.now key t.mode st meta with h | ⟨_, hgate, hrest⟩
    · simp only [h, TickOutcome.invoked, TickOutcome.store, TickOutcome.meta,
        Bool.false_eq_true, if_false]
      exact ih st meta
    · rcases hrest with ⟨_, he⟩ | ⟨_, he⟩
      · simp only [he, TickOutcome.invoked, TickOutcome.store, TickOutcome.meta,
          Bool.false_eq_true, if_false]
        apply chain_head_mono (show meta.lastCommentAt ≤ t.now by omega)
        simpa using ih st { meta with lastCommentAt := t.now }
      · rcases he with ⟨he, _⟩ | ⟨evs, he⟩
        · simp only [he, TickOutcome.invoked, TickOutcome.store, TickOutcome.meta,
            Bool.false_eq_true, if_false]
          apply chain_head_mono (show meta.lastCommentAt ≤ t.now by omega)
          simpa using ih _ { meta with lastCommentAt := t.now }
        · simp only [he, TickOutcome.invoked, TickOutcome.store, TickOutcome.meta, if_true]
          rw [List.chain'_cons]
          refine ⟨by omega, ?_⟩
          simpa using ih _ { meta with lastCommentAt := t.now }

/-- C4: for every session, under any sequence of commentary-scheduler
ticks, consecutive generation-invocation timestamps differ by at least
the configured interval — because `lastCommentAt` is advanced to the tick
time immediately upon admission (before generation completes) and also
upon admission rejection, so a slow or streaming call cannot double-fire
the next tick. -/
theorem commentary_min_interval (cfg : Config) (key : String) (ticks : List TickInput)
    (st : Store) (meta : Meta) (hI : 0 ≤ cfg.commentaryIntervalMs) :
    List.Chain' (fun a b => cfg.commentaryIntervalMs ≤ b - a)
      (runCommentary cfg key ticks st meta) := by
  have h2 := (runCommentary_chain cfg key hI ticks st meta).tail
  exact List.Chain'.imp (fun a b hab => by omega) h2

theorem commentary_min_interval_witness :
    (0 : Int) ≤ Config.default.commentaryIntervalMs ∧
    runCommentary Config.default "dev-user"
        [⟨1200, .simulated ⟨0, false, false⟩⟩, ⟨1800, .simulated ⟨1, false, false⟩⟩,
         ⟨2400, .simulated ⟨2, false, false⟩⟩] ⟨[]⟩ sampleMeta = [1200, 2400] ∧
    List.Chain' (fun a b => Config.default.commentaryIntervalMs ≤ b - a)
      (runCommentary Config.default "dev-user"
        [⟨1200, .simulated ⟨0, false, false⟩⟩, ⟨1800, .simulated ⟨1, false, false⟩⟩,
         ⟨2400, .simulated ⟨2, false, false⟩⟩] ⟨[]⟩ sampleMeta) :=
  ⟨by decide, rfl,
   commentary_min_interval Config.default "dev-user"
     [⟨1200, .simulated ⟨0, false, false⟩⟩, ⟨1800, .simulated ⟨1, false, false⟩⟩,
      ⟨2400, .simulated ⟨2, false, false⟩⟩] ⟨[]⟩ sampleMeta (by decide)⟩

/-- Every decoded inbound value falls into exactly one dispatch family of
the `if`/`else if` chain: rejected state frame, admitted state frame,
`coach_enable`, `ping`, or the unknown-type error. -/
theorem dispatch_cases (cfg : Config) (now : Int) (key : String) (st : Store)
    (meta : Meta) (d : JSVal) :
    dispatch cfg now key st meta d = ⟨st, meta, [.error "state rate limit exceeded"]⟩ ∨
    (∃ st' p, dispatch cfg now key st meta d = ⟨st', { meta with lastState := p }, []⟩) ∨
    (∃ b, dispatch cfg now key st meta d =
        ⟨st, { meta with coachEnabled := b, lastCoachAt := 0 }, [.coach_status b]⟩) ∨
    dispatch cfg now key st meta d = ⟨st, meta, [.pong now]⟩ ∨
    dispatch cfg now key st meta d = ⟨st, meta, [.error "unknown message type"]⟩ := by
  unfold dispatch
  split_ifs with h1 h2 h3 h4
  · rcases hc : consume (stateLimiter cfg) st key with u | st'
    · cases u
      exact Or.inl rfl
    · exact Or.inr (Or.inl ⟨st', _, rfl⟩)
  · rcases hc : consume (stateLimiter cfg) st key with u | st'
    · cases u
      exact Or.inl rfl
    · exact Or.inr (Or.inl ⟨st', _, rfl⟩)
  · exact Or.inr (Or.inr (Or.inl ⟨_, rfl⟩))
  · exact Or.inr (Or.inr (Or.inr (Or.inl rfl)))
  · exact Or.inr (Or.inr (Or.inr (Or.inr rfl)))

/-- C5: frame decode is total: for any inbound message, binary or text,
the per-message handler (a total function of this embedding, mirroring
the `try`/`catch` around `msgpack.decode` / `JSON.parse` — nothing
escapes it) either dispatches to one of the defined commands (state,
admitted or rate-limit-rejected, `coach_enable`, `ping`) or sends exactly
one `error` event, and in the error cases the session record and the
admission store are untouched. -/
theorem handleMessage_total (cfg : Config) (now : Int) (key : String) (st : Store)
    (meta : Meta) (msg : InMsg) :
    handleMessage cfg now key st meta msg = ⟨st, meta, [.error "invalid message"]⟩ ∨
    handleMessage cfg now key st meta msg =
      ⟨st, meta, [.error "state rate limit exceeded"]⟩ ∨
    (∃ st' p, handleMessage cfg now key st meta msg =
        ⟨st', { meta with lastState := p }, []⟩) ∨
    (∃ b, handleMessage cfg now key st meta msg =
        ⟨st, { meta with coachEnabled := b, lastCoachAt := 0 }, [.coach_status b]⟩) ∨
    handleMessage cfg now key st meta msg = ⟨st, meta, [.pong now]⟩ ∨
    handleMessage cfg now key st meta msg = ⟨st, meta, [.error "unknown message type"]⟩ := by
  cases msg with
  | binary dec =>
    cases dec with
    | error u => exact Or.inl rfl
    | ok d => exact Or.inr (dispatch_cases cfg now key st meta d)
  | text raw =>
    rcases hp : jsonParse raw with u | d
    · have hm : handleMessage cfg now key st meta (.text raw) =
          ⟨st, meta, [.error "invalid message"]⟩ := by
        simp only [handleMessage, hp]
      exact Or.inl hm
    · have hm : handleMessage cfg now key st meta (.text raw) =
          dispatch cfg now key st meta d := by
        simp only [handleMessage, hp]
      rw [hm]
      exact Or.inr (dispatch_cases cfg now key st meta d)

/-- C6: for every connection attempt — if the first requested sub-protocol
is not `pong-proto.v1`, or no credential is found as the second
sub-protocol token or the `token` query parameter, or the credential
fails verification (undecodable token, wrong signing secret, or expired),
the attempt is refused before the upgrade and no session record or event
is ever produced; if the credential verifies, the connection is accepted,
the session record is created, and a `welcome` event carrying the decoded
identity claims is sent. -/
theorem handshake_auth (secret : String) (now : Int)
    (decodeTok : String → Option JwtToken)
    (protocols : List String) (queryToken : Option String) :
    (¬ protocols.head? = some "pong-proto.v1" →
      acceptConnection (jwtVerify secret now decodeTok) protocols queryToken = none) ∧
    (requestToken protocols queryToken = none →
      acceptConnection (jwtVerify secret now decodeTok) protocols queryToken = none) ∧
    (∀ t, requestToken protocols queryToken = some t → decodeTok t = none →
      acceptConnection (jwtVerify secret now decodeTok) protocols queryToken = none) ∧
    (∀ t tok, requestToken protocols queryToken = some t → decodeTok t = some tok →
      (¬ tok.signedWith = secret ∨ tok.expiresAt ≤ now) →
      acceptConnection (jwtVerify secret now decodeTok) protocols queryToken = none) ∧
    (∀ t tok, protocols.head? = some "pong-proto.v1" →
      requestToken protocols queryToken = some t → ¬ t = "" →
      decodeTok t = some tok → tok.signedWith = secret → now < tok.expiresAt →
      acceptConnection (jwtVerify secret now decodeTok) protocols queryToken =
        some (initMeta, [.welcome tok.claims])) := by
  refine ⟨?_, ?_, ?_, ?_, ?_⟩
  · intro h
    unfold acceptConnection onUpgrade
    rw [if_pos (Or.inr h)]
  · intro h
    unfold acceptConnection onUpgrade
    split_ifs with h1
    · rfl
    · rw [h]
  · intro t ht hdec
    unfold acceptConnection onUpgrade
    split_ifs with h1
    · rfl
    · simp only [ht]
      by_cases he : t = ""
      · rw [if_pos he]
      · rw [if_neg he]
        simp only [jwtVerify, hdec]
  · intro t tok ht hdec hbad
    unfold acceptConnection onUpgrade
    split_ifs with h1
    · rfl
    · simp only [ht]
      by_cases he : t = ""
      · rw [if_pos he]
      · rw [if_neg he]
        have hcond : ¬ (tok.signedWith = secret ∧ now < tok.expiresAt) := by
          rcases hbad with hb | hb
          · exact fun hx => hb hx.1
          · exact fun hx => absurd hx.2 (by omega)
        simp only [jwtVerify, hdec, if_neg hcond]
  · intro t tok hh ht hne hdec hsig hexp
    unfold acceptConnection onUpgrade
    have h1 : ¬ (protocols.isEmpty = true ∨ ¬ protocols.head? = some "pong-proto.v1") := by
      rintro (h | h)
      · cases protocols with
        | nil => simp at hh
        | cons a l => simp [List.isEmpty] at h
      · exact h hh
    rw [if_neg h1]
    simp only [ht]
    rw [if_neg hne]
    simp only [jwtVerify, hdec]
    rw [if_pos (show tok.signedWith = secret ∧ now < tok.expiresAt from ⟨hsig, hexp⟩)]
    rfl

theorem handshake_auth_witness :
    acceptConnection
        (jwtVerify "server-secret" 0
          (fun x => if x = "tok1"
            then some ⟨.obj [("sub", .str "dev-user"), ("role", .str "tester")],
                        "server-secret", 3600⟩
            else none))
        ["pong-proto.v1", "tok1"] none =
      some (initMeta,
        [.welcome (.obj [("sub", .str "dev-user"), ("role", .str "tester")])]) ∧
    acceptConnection
        (jwtVerify "server-secret" 0
          (fun x => if x = "tok1"
            then some ⟨.obj [("sub", .str "dev-user"), ("role", .str "tester")],
                        "server-secret", 3600⟩
            else none))
        ["other-proto"] none = none := by
  constructor
  · exact (handshake_auth "server-secret" 0 _ ["pong-proto.v1", "tok1"] none).2.2.2.2
      "tok1" ⟨.obj [("sub", .str "dev-user"), ("role", .str "tester")], "server-secret", 3600⟩
      rfl rfl (by decide) rfl rfl (by decide)
  · exact (handshake_auth "server-secret" 0 _ ["other-proto"] none).1 (by decide)

/-- The prompt template completes exactly on `promptSafe` snapshots: the
snapshot and its four member objects non-nullish; numeric leaves are free
to be missing or NaN-like. -/
theorem snapshotText_ok_iff (s : JSVal) :
    (∃ p, snapshotText s = Except.ok p) ↔ promptSafe s = true := by
  by_cases hs : s.nullish = true
  · simp [snapshotText, numField, strField, JSVal.getProp_eq, hs, promptSafe,
      Bind.bind, Except.bind, pure, Except.pure]
  · by_cases h1 : (s.getField "ball").nullish = true
    · simp [snapshotText, numField, strField, JSVal.getProp_eq, hs, h1, promptSafe,
        Bind.bind, Except.bind, pure, Except.pure]
    · by_cases h2 : (s.getField "leftPaddle").nullish = true
      · simp [snapshotText, numField, strField, JSVal.getProp_eq, hs, h1, h2, promptSafe,
          Bind.bind, Except.bind, pure, Except.pure]
      · by_cases h3 : (s.getField "rightPaddle").nullish = true
        · simp [snapshotText, numField, strField, JSVal.getProp_eq, hs, h1, h2, h3,
            promptSafe, Bind.bind, Except.bind, pure, Except.pure]
        · by_cases h4 : (s.getField "score").nullish = true
          · simp [snapshotText, numField, strField, JSVal.getProp_eq, hs, h1, h2, h3, h4,
              promptSafe, Bind.bind, Except.bind, pure, Except.pure]
          · simp [snapshotText, numField, strField, JSVal.getProp_eq, hs, h1, h2, h3, h4,
              promptSafe, Bind.bind, Except.bind, pure, Except.pure]

/-- C2 (amended): a commentary or coach scheduler tick that reaches prompt
construction completes without raising provided the session's snapshot
and its `ball`, `leftPaddle`, `rightPaddle` and `score` members are all
non-nullish — missing or NaN-like numeric leaves merely degrade the
prompt text and never throw.  (Without that proviso the claim fails: see
the counterexample, where a truthy snapshot with no `ball` member makes
the template literal throw and abort the tick.) -/
theorem prompt_construction_safe (cfg : Config) (now : Int) (key : String)
    (gmode : GenMode) (cmode : CoachMode) (st : Store) (meta : Meta)
    (h : promptSafe meta.lastState = true) :
    (commentaryTick cfg now key gmode st meta).threw = false ∧
    (coachTick cfg now key cmode st meta).threw = false := by
  obtain ⟨p, hp⟩ := (snapshotText_ok_iff meta.lastState).mpr h
  constructor
  · rcases commentaryTick_shape cfg now key gmode st meta with hs | ⟨_, _, hrest⟩
    · rw [hs]
      rfl
    · rcases hrest with ⟨_, he⟩ | ⟨_, he⟩
      · rw [he]
        rfl
      · rcases he with ⟨_, hperr⟩ | ⟨evs, he⟩
        · rw [commentaryUserPrompt, hp] at hperr
          exact absurd hperr (by simp [Except.map])
        · rw [he]
          rfl
  · rcases coachTick_shape cfg now key cmode st meta with hs | ⟨_, _, _, hrest⟩
    · rw [hs]
      rfl
    · rcases hrest with ⟨_, he⟩ | ⟨_, he⟩
      · rw [he]
        rfl
      · rcases he with ⟨_, hperr⟩ | ⟨evs, he⟩
        · rw [coachUserPrompt, hp] at hperr
          exact absurd hperr (by simp [Except.map])
        · rw [he]
          rfl

theorem prompt_construction_safe_witness :
    promptSafe sampleState = true ∧
    (commentaryTick Config.default 5000 "dev-user" (.simulated ⟨0, false, false⟩) ⟨[]⟩
        sampleMeta).threw = false ∧
    (coachTick Config.default 20000 "dev-user" (.simulated 0) ⟨[]⟩
        sampleCoachMeta).threw = false := by
  refine ⟨rfl, ?_, ?_⟩
  · exact (prompt_construction_safe Config.default 5000 "dev-user"
      (.simulated ⟨0, false, false⟩) (.simulated 0) ⟨[]⟩ sampleMeta rfl).1
  · exact (prompt_construction_safe Config.default 20000 "dev-user"
      (.simulated ⟨0, false, false⟩) (.simulated 0) ⟨[]⟩ sampleCoachMeta rfl).2

/-- C2 counterexample: a session whose snapshot is the truthy empty object
passes the state gate, the interval gate and admission, reaches prompt
construction, and the template literal throws (`s.ball.x` with `s.ball`
undefined): the tick aborts — the claim's "completes without raising,
never aborts the tick" is false on the code. -/
theorem prompt_construction_counterexample :
    (JSVal.obj []).truthy = true ∧
    snapshotText (.obj []) = .error () ∧
    (commentaryTick Config.default 5000 "dev-user" (.simulated ⟨0, false, false⟩) ⟨[]⟩
        ⟨0, 0, false, .obj []⟩).threw = true ∧
    (coachTick Config.default 20000 "dev-user" (.simulated 0) ⟨[]⟩
        ⟨0, 0, true, .obj []⟩).threw = true :=
  ⟨rfl, rfl, rfl, rfl⟩

/-- C1 (amended): for every state frame, in either encoding — when the
state-ingest admission check rejects it, the session record (in
particular `lastState`) and the store are left unmutated, but the drop is
not silent: exactly one `error` event (`state rate limit exceeded`) is
sent to the client; when the admission check admits it, `lastState` is
overwritten with the frame's payload and no event is sent. -/
theorem state_admission (cfg : Config) (now : Int) (key : String) (st : Store)
    (meta : Meta) (d : JSVal)
    (h : (d.isArray = true ∧ (d.index 0).strEq "state" = true) ∨
         (d.getField "type").strEq "state" = true) :
    (consume (stateLimiter cfg) st key = .error () →
      dispatch cfg now key st meta d =
        ⟨st, meta, [.error "state rate limit exceeded"]⟩) ∧
    (∀ st', consume (stateLimiter cfg) st key = .ok st' →
      dispatch cfg now key st meta d =
        ⟨st', { meta with lastState :=
                  if d.isArray then d.index 1 else d.getField "state" }, []⟩) := by
  rcases h with ⟨ha, has⟩ | hts
  · constructor
    · intro hc
      unfold dispatch
      rw [if_pos ⟨ha, has⟩]
      simp only [hc]
    · intro st' hc
      unfold dispatch
      rw [if_pos ⟨ha, has⟩]
      simp only [hc, ha, if_true]
  · have hv := (JSVal.strEq_iff _ _).mp hts
    have hobj : ∃ fs, d = .obj fs := by
      cases d <;> simp [JSVal.getField] at hv
      exact ⟨_, rfl⟩
    obtain ⟨fs, rfl⟩ := hobj
    have hna : ¬ ((JSVal.obj fs).isArray = true ∧
        ((JSVal.obj fs).index 0).strEq "state" = true) := by
      simp [JSVal.isArray]
    constructor
    · intro hc
      unfold dispatch
      rw [if_neg hna, if_pos ⟨by simp [JSVal.truthy], hts⟩]
      simp only [hc]
    · intro st' hc
      unfold dispatch
      rw [if_neg hna, if_pos ⟨by simp [JSVal.truthy], hts⟩]
      simp only [hc, JSVal.isArray, Bool.false_eq_true, if_false]

theorem state_admission_witness :
    dispatch Config.default 0 "dev-user" ⟨[("rl_state:dev-user", 5)]⟩ initMeta
        (.arr [.str "state", .num 7]) =
      ⟨⟨[("rl_state:dev-user", 5)]⟩, initMeta, [.error "state rate limit exceeded"]⟩ ∧
    dispatch Config.default 0 "dev-user" ⟨[]⟩ initMeta (.arr [.str "state", .num 7]) =
      ⟨(⟨[]⟩ : Store).inc "rl_state:dev-user", { initMeta with lastState := .num 7 }, []⟩ := by
  constructor
  · exact (state_admission Config.default 0 "dev-user" ⟨[("rl_state:dev-user", 5)]⟩ initMeta
      (.arr [.str "state", .num 7]) (Or.inl ⟨rfl, rfl⟩)).1 rfl
  · exact (state_admission Config.default 0 "dev-user" ⟨[]⟩ initMeta
      (.arr [.str "state", .num 7]) (Or.inl ⟨rfl, rfl⟩)).2
      ((⟨[]⟩ : Store).inc "rl_state:dev-user") rfl

/-- C1 counterexample: the spec scenario itself — six state frames from one
identity in one window under the default budget of 5.  The first five are
admitted (after them `lastState` holds the fifth payload), the sixth is
rejected without mutating `lastState` or the store, but the claim's "no
outbound event is sent" is false: the sixth elicits exactly one `error`
event. -/
theorem state_rejection_not_silent_counterexample :
    fiveFrames.2.lastState = .num 4 ∧
    sixthFrame.events = [.error "state rate limit exceeded"] ∧
    sixthFrame.events ≠ [] ∧
    sixthFrame.meta.lastState = .num 4 ∧
    sixthFrame.store = fiveFrames.1 := by
  refine ⟨rfl, rfl, ?_, rfl, rfl⟩
  intro h
  have he : sixthFrame.events = [OutEvent.error "state rate limit exceeded"] := rfl
  rw [he] at h
  exact List.cons_ne_nil _ _ h

/-- Routing of a final text in the streaming path is one of exactly two
shapes: plain commentary, or a strict directive's `control` plus
confirmation. -/
theorem streamFinalEmit_shape (t : String) :
    (streamFinalEmit t = [.commentary t] ∧ controlCount (streamFinalEmit t) = 0) ∨
    (∃ v, jsonParse t = .ok v ∧ v.truthy = true ∧
      (v.getField "type").strEq "aiAdjust" = true ∧
      (v.getField "aiSpeed").isNumber = true ∧
      streamFinalEmit t =
        [.control v,
         .commentary ("(AI speed set to " ++ jsToString (v.getField "aiSpeed") ++ ")")]) := by
  rcases hp : jsonParse t with u | v
  · have he : streamFinalEmit t = [.commentary t] := by
      simp only [streamFinalEmit, hp]
    exact Or.inl ⟨he, by rw [he]; rfl⟩
  · by_cases hc : v.truthy = true ∧ (v.getField "type").strEq "aiAdjust" = true ∧
        (v.getField "aiSpeed").isNumber = true
    · have he : streamFinalEmit t =
          [.control v,
           .commentary ("(AI speed set to " ++ jsToString (v.getField "aiSpeed") ++ ")")] := by
        simp only [streamFinalEmit, hp]
        rw [if_pos hc]
      exact Or.inr ⟨v, rfl, hc.1, hc.2.1, hc.2.2, he⟩
    · have he : streamFinalEmit t = [.commentary t] := by
        simp only [streamFinalEmit, hp]
        rw [if_neg hc]
      exact Or.inl ⟨he, by rw [he]; rfl⟩

/-- C3 (amended): directive parsing — in the external-provider (streaming)
path a final text yields a `control` event iff it parses as a truthy JSON
value tagged `aiAdjust` with a numeric `aiSpeed`, and then exactly one
`control` followed by exactly one confirmation `commentary`, in that
order; any other text yields zero `control` events and is sent as plain
commentary.  In the simulated path the code omits the numeric-speed test:
a `control` event is emitted iff the text parses as a truthy value tagged
`aiAdjust`, whether or not `aiSpeed` is numeric (the counterexample
exhibits a non-numeric directive passing there). -/
theorem directive_parse_paths (text : String) :
    ((∃ v, jsonParse text = .ok v ∧ v.truthy = true ∧
        (v.getField "type").strEq "aiAdjust" = true ∧
        (v.getField "aiSpeed").isNumber = true) →
      ∃ v, jsonParse text = .ok v ∧
        streamFinalEmit text =
          [.control v,
           .commentary ("(AI speed set to " ++ jsToString (v.getField "aiSpeed") ++ ")")] ∧
        controlCount (streamFinalEmit text) = 1 ∧
        commentaryCount (streamFinalEmit text) = 1) ∧
    ((¬ ∃ v, jsonParse text = .ok v ∧ v.truthy = true ∧
        (v.getField "type").strEq "aiAdjust" = true ∧
        (v.getField "aiSpeed").isNumber = true) →
      streamFinalEmit text = [.commentary text] ∧
        controlCount (streamFinalEmit text) = 0) ∧
    ((∃ v, jsonParse text = .ok v ∧ v.truthy = true ∧
        (v.getField "type").strEq "aiAdjust" = true) →
      ∃ v, jsonParse text = .ok v ∧
        simulatedEmit text =
          [.control v,
           .commentary ("(AI speed set to " ++ jsToString (v.getField "aiSpeed") ++ ")")] ∧
        controlCount (simulatedEmit text) = 1) ∧
    ((¬ ∃ v, jsonParse text = .ok v ∧ v.truthy = true ∧
        (v.getField "type").strEq "aiAdjust" = true) →
      simulatedEmit text = [.commentary text] ∧
        controlCount (simulatedEmit text) = 0) := by
  refine ⟨?_, ?_, ?_, ?_⟩
  · rintro ⟨v, hv, h1, h2, h3⟩
    have he : streamFinalEmit text =
        [.control v,
         .commentary ("(AI speed set to " ++ jsToString (v.getField "aiSpeed") ++ ")")] := by
      simp only [streamFinalEmit, hv]
      rw [if_pos ⟨h1, h2, h3⟩]
    exact ⟨v, hv, he, by rw [he]; rfl, by rw [he]; rfl⟩
  · intro hne
    rcases hp : jsonParse text with u | v
    · have he : streamFinalEmit text = [.commentary text] := by
        simp only [streamFinalEmit, hp]
      exact ⟨he, by rw [he]; rfl⟩
    · have hc : ¬ (v.truthy = true ∧ (v.getField "type").strEq "aiAdjust" = true ∧
          (v.getField "aiSpeed").isNumber = true) := by
        intro hx
        exact hne ⟨v, hp, hx.1, hx.2.1, hx.2.2⟩
      have he : streamFinalEmit text = [.commentary text] := by
        simp only [streamFinalEmit, hp]
        rw [if_neg hc]
      exact ⟨he, by rw [he]; rfl⟩
  · rintro ⟨v, hv, h1, h2⟩
    have he : simulatedEmit text =
        [.control v,
         .commentary ("(AI speed set to " ++ jsToString (v.getField "aiSpeed") ++ ")")] := by
      simp only [simulatedEmit, hv]
      rw [if_pos ⟨h1, h2⟩]
    exact ⟨v, hv, he, by rw [he]; rfl⟩
  · intro hne
    rcases hp : jsonParse text with u | v
    · have he : simulatedEmit text = [.commentary text] := by
        simp only [simulatedEmit, hp]
      exact ⟨he, by rw [he]; rfl⟩
    · have hc : ¬ (v.truthy = true ∧ (v.getField "type").strEq "aiAdjust" = true) := by
        intro hx
        exact hne ⟨v, hp, hx.1, hx.2⟩
      have he : simulatedEmit text = [.commentary text] := by
        simp only [simulatedEmit, hp]
        rw [if_neg hc]
      exact ⟨he, by rw [he]; rfl⟩

theorem directive_parse_paths_witness :
    (∃ v, jsonParse "\x7b\"type\":\"aiAdjust\",\"aiSpeed\":5\x7d" = .ok v ∧
      streamFinalEmit "\x7b\"type\":\"aiAdjust\",\"aiSpeed\":5\x7d" =
        [.control v,
         .commentary ("(AI speed set to " ++ jsToString (v.getField "aiSpeed") ++ ")")] ∧
      controlCount (streamFinalEmit "\x7b\"type\":\"aiAdjust\",\"aiSpeed\":5\x7d") = 1 ∧
      commentaryCount (streamFinalEmit "\x7b\"type\":\"aiAdjust\",\"aiSpeed\":5\x7d") = 1) ∧
    simulatedEmit "Nice block!" = [.commentary "Nice block!"] ∧
    controlCount (simulatedEmit "Nice block!") = 0 := by
  refine ⟨?_, ?_⟩
  · exact (directive_parse_paths "\x7b\"type\":\"aiAdjust\",\"aiSpeed\":5\x7d").1
      ⟨.obj [("type", .str "aiAdjust"), ("aiSpeed", .num 5)], rfl, rfl, rfl, rfl⟩
  · refine (directive_parse_paths "Nice block!").2.2.2 ?_
    rintro ⟨v, hv, -⟩
    rw [show jsonParse "Nice block!" = Except.error () from rfl] at hv
    cases hv

/-- C3 counterexample: the simulated-path branch, applied to a text that
is a well-formed `aiAdjust` object whose `aiSpeed` is the non-numeric
string `"fast"`, still emits a `control` event — the claim's "any other
text (… non-numeric speed field) produces zero control events" is false
for the simulated path. -/
theorem simulated_numeric_check_counterexample :
    jsonParse "\x7b\"type\":\"aiAdjust\",\"aiSpeed\":\"fast\"\x7d" =
      .ok (.obj [("type", .str "aiAdjust"), ("aiSpeed", .str "fast")]) ∧
    (JSVal.str "fast").isNumber = false ∧
    simulatedEmit "\x7b\"type\":\"aiAdjust\",\"aiSpeed\":\"fast\"\x7d" =
      [.control (.obj [("type", .str "aiAdjust"), ("aiSpeed", .str "fast")]),
       .commentary "(AI speed set to fast)"] ∧
    controlCount (simulatedEmit "\x7b\"type\":\"aiAdjust\",\"aiSpeed\":\"fast\"\x7d") = 1 :=
  ⟨rfl, rfl, rfl, rfl⟩

theorem streamLoop_eq (cs : List String) :
    streamLoop cs = ((cs.filter (fun c => c ≠ "")).map OutEvent.commentary_chunk,
      streamAggregate cs) := by
  induction cs with
  | nil => rfl
  | cons c cs ih =>
    by_cases hc : c = ""
    · subst hc
      simp [streamLoop, streamAggregate, ih]
    · simp [streamLoop, streamAggregate, ih, hc]

/-- C8 (amended): for every streaming generation yielding a finite
sequence of nonempty chunks, the client receives one `commentary_chunk`
event per chunk, in stream order, followed by the routing of the trimmed
concatenation: exactly one final `commentary` event in every case — its
text is the trimmed concatenation, unless the trimmed concatenation
parses as a speed directive, in which case a `control` event and a
confirmation `commentary` (not the concatenation) are sent instead. -/
theorem streaming_chunks_then_final (chunks : List String)
    (h : ∀ c ∈ chunks, c ≠ "") :
    streamEmit chunks =
      chunks.map OutEvent.commentary_chunk ++
        streamFinalEmit (jsTrim (streamAggregate chunks)) ∧
    chunkCount (streamFinalEmit (jsTrim (streamAggregate chunks))) = 0 ∧
    commentaryCount (streamFinalEmit (jsTrim (streamAggregate chunks))) = 1 ∧
    ((streamFinalEmit (jsTrim (streamAggregate chunks)) =
        [.commentary (jsTrim (streamAggregate chunks))] ∧
      controlCount (streamFinalEmit (jsTrim (streamAggregate chunks))) = 0) ∨
     (∃ v, jsonParse (jsTrim (streamAggregate chunks)) = .ok v ∧
        streamFinalEmit (jsTrim (streamAggregate chunks)) =
          [.control v,
           .commentary ("(AI speed set to " ++ jsToString (v.getField "aiSpeed") ++ ")")])) := by
  have hfilter : chunks.filter (fun c => c ≠ "") = chunks := by
    rw [List.filter_eq_self]
    intro a ha
    simpa using h a ha
  refine ⟨?_, ?_, ?_, ?_⟩
  · unfold streamEmit
    rw [streamLoop_eq, hfilter]
  · rcases streamFinalEmit_shape (jsTrim (streamAggregate chunks)) with ⟨he, _⟩ | ⟨v, _, _, _, _, he⟩ <;>
      rw [he] <;> rfl
  · rcases streamFinalEmit_shape (jsTrim (streamAggregate chunks)) with ⟨he, _⟩ | ⟨v, _, _, _, _, he⟩ <;>
      rw [he] <;> rfl
  · rcases streamFinalEmit_shape (jsTrim (streamAggregate chunks)) with ⟨he, hc⟩ | ⟨v, hv, _, _, _, he⟩
    · exact Or.inl ⟨he, hc⟩
    · exact Or.inr ⟨v, hv, he⟩

theorem streaming_chunks_then_final_witness :
    (∀ c ∈ ["Nice", " shot", "!"], c ≠ "") ∧
    streamEmit ["Nice", " shot", "!"] =
      [.commentary_chunk "Nice", .commentary_chunk " shot", .commentary_chunk "!",
       .commentary "Nice shot!"] ∧
    streamEmit ["Nice", " shot", "!"] =
      ["Nice", " shot", "!"].map OutEvent.commentary_chunk ++
        streamFinalEmit (jsTrim (streamAggregate ["Nice", " shot", "!"])) :=
  ⟨by decide, rfl,
   (streaming_chunks_then_final ["Nice", " shot", "!"] (by decide)).1⟩

/-- C8 counterexample: two nonempty chunks whose concatenation parses as a
speed directive — both chunk events are sent, but then a `control` event
and a confirmation `commentary` whose text is not the (trimmed)
concatenation, refuting the claim's unconditional "one `commentary` event
whose text is the concatenation of all chunks". -/
theorem streaming_directive_counterexample :
    (["\x7b\"type\":\"aiAdjust\"", ",\"aiSpeed\":5\x7d"].all (fun c => c != "")) = true ∧
    streamEmit ["\x7b\"type\":\"aiAdjust\"", ",\"aiSpeed\":5\x7d"] =
      [.commentary_chunk "\x7b\"type\":\"aiAdjust\"",
       .commentary_chunk ",\"aiSpeed\":5\x7d",
       .control (.obj [("type", .str "aiAdjust"), ("aiSpeed", .num 5)]),
       .commentary "(AI speed set to 5)"] ∧
    controlCount (streamEmit ["\x7b\"type\":\"aiAdjust\"", ",\"aiSpeed\":5\x7d"]) = 1 ∧
    "(AI speed set to 5)" ≠
      jsTrim (streamAggregate ["\x7b\"type\":\"aiAdjust\"", ",\"aiSpeed\":5\x7d"]) :=
  ⟨rfl, rfl, rfl, by decide⟩

end PongServer
